import Mathlib

/-!
Verification of the sublayer activation engine of `src/utils.ts`.

The TypeScript source is shallowly embedded below: JavaScript objects become
association lists (`List (String × _)`) whose iteration order is the object
literal order, `Object.keys` / `Object.entries` become projections on those
lists, and the runtime `TypeError` thrown by evaluating `"to" in value` on a
non-object value is modelled with `Except String`.
-/

/-- KeyIdentifier: the TypeScript `KeyCode` string-literal union is embedded as
`String` (the finite vocabulary itself lives in `./types`, outside the core). -/
abbrev KeyCode := String

/-- One low-level output event (the `To` shape of `./types`): send a key with
modifiers, run a shell command, or set a named state variable. -/
inductive ToEvent where
  | key (key_code : KeyCode) (modifiers : List String)
  | shell (command : String)
  | setVar (name : String) (value : Nat)
deriving DecidableEq

/-- A guard record `{type, name, value}` as emitted in `conditions` lists;
the source only ever emits `type = "variable_if"`. -/
structure Condition where
  type : String
  name : String
  value : Nat
deriving DecidableEq

/-- The `from` field of a manipulator: trigger key plus the optional-modifier
policy (the source always passes `optional: ["any"]`). -/
structure FromEvent where
  key_code : KeyCode
  optional_modifiers : List String
deriving DecidableEq

/-- A Karabiner manipulator as emitted by the compiler.  Fields that the
source leaves absent on some manipulators (`description`, `to_if_alone`,
`to_after_key_up`) are `Option`s, `none` meaning the field is not present. -/
structure Manipulator where
  description : Option String
  type : String
  «from» : FromEvent
  «to» : List ToEvent
  to_if_alone : Option (List ToEvent)
  to_after_key_up : Option (List ToEvent)
  conditions : List Condition
deriving DecidableEq

/-- `LayerCommand` of `src/utils.ts`: a direct action (`to` plus optional
`description`). -/
structure LayerCommand where
  «to» : List ToEvent
  description : Option String
deriving DecidableEq

/-- `HyperKeySublayer` of `src/utils.ts`: an object mapping key codes to
`LayerCommand`s, embedded as an association list in object-literal order. -/
abbrev HyperKeySublayer := List (KeyCode × LayerCommand)

/-- One value of the top-level map given to `createHyperSubLayers`.  Beyond the
declared union `HyperKeySublayer | LayerCommand`, the registry filter of the source
also inspects values for `undefined` (an explicitly assigned absent property)
and for primitive strings, so both are representable. -/
inductive BindingEntry where
  | undef
  | str (s : String)
  | sub (m : HyperKeySublayer)
  | act (c : LayerCommand)
deriving DecidableEq

/-- A compiled rule (`KarabinerRules` of `./types`): description plus
manipulator list. -/
structure KarabinerRules where
  description : String
  manipulators : List Manipulator
deriving DecidableEq

/-- Line 189: `generateSubLayerVariableName`. -/
def generateSubLayerVariableName (key : KeyCode) : String :=
  "hyper_sublayer_" ++ key

/-- `Object.keys` of a binding-entry value as consulted at line 140.  A
`LayerCommand` object literal has key `"to"` and, when a description was
supplied, key `"description"`.  The `undef` and `str` branches are never
reached there (lines 136 and 138 return first); `[]` is a placeholder. -/
def objectKeys : BindingEntry → List String
  | .undef => []
  | .str _ => []
  | .sub m => m.map Prod.fst
  | .act c => "to" :: (if c.description.isSome then ["description"] else [])

/-- The registry filter of lines 135-144: drop `undefined` values, drop
primitive strings, drop values having no key other than `"to"`. -/
def keepInRegistry : BindingEntry → Bool
  | .undef => false
  | .str _ => false
  | e => ((objectKeys e).filter (fun k => k != "to")).length != 0

/-- Lines 132-145: the `allSubLayerVariables` registry — variable names of the
entries that survive the filter, in declaration order. -/
def allSubLayerVariables (subLayers : List (KeyCode × BindingEntry)) : List String :=
  (subLayers.filter (fun p => keepInRegistry p.2)).map
    (fun p => generateSubLayerVariableName p.1)

/-- Lines 21-122: `createHyperSubLayer`.  The head of the result is the toggle
manipulator; it is followed by one manipulator per command key, in order. -/
def createHyperSubLayer (sublayer_key : KeyCode) (commands : HyperKeySublayer)
    (allSubLayerVariables : List String) : List Manipulator :=
  let subLayerVariableName := generateSubLayerVariableName sublayer_key
  { description := some ("Toggle Hyper sublayer " ++ sublayer_key)
    type := "basic"
    «from» := { key_code := sublayer_key, optional_modifiers := ["any"] }
    «to» := [ToEvent.setVar subLayerVariableName 1]
    to_if_alone := some [ToEvent.key sublayer_key
      ["left_shift", "left_command", "left_control", "left_option"]]
    to_after_key_up := some [ToEvent.setVar subLayerVariableName 0]
    conditions :=
      (allSubLayerVariables.filter
          (fun subLayerVariable => subLayerVariable != subLayerVariableName)).map
        (fun subLayerVariable =>
          { type := "variable_if", name := subLayerVariable, value := 0 })
      ++ [{ type := "variable_if", name := "hyper", value := 1 }] }
  :: commands.map (fun p =>
      { description := p.2.description
        type := "basic"
        «from» := { key_code := p.1, optional_modifiers := ["any"] }
        «to» := p.2.«to»
        to_if_alone := none
        to_after_key_up := none
        conditions :=
          [{ type := "variable_if", name := subLayerVariableName, value := 1 }] })

/-- The test `"to" in value` of line 149.  Applying the `in` operator to
`undefined` or to a primitive string throws a `TypeError` at runtime, which is
modelled as `Except.error`. -/
def hasTo : BindingEntry → Except String Bool
  | .undef =>
    .error ("TypeError: cannot use the in operator to search for to in undefined")
  | .str s =>
    .error ("TypeError: cannot use the in operator to search for to in " ++ s)
  | .sub m => .ok (m.any (fun p => p.1 == "to"))
  | .act _ => .ok true

/-- The `LayerCommand` fields read by the spread `...value` on the direct path
(lines 152-161).  The non-`act` branches are unreachable for inputs respecting
the declared TypeScript types (`"to"` is not a `KeyCode`). -/
def directCommand : BindingEntry → LayerCommand
  | .act c => c
  | _ => { «to» := [], description := none }

/-- The `HyperKeySublayer` passed on to `createHyperSubLayer` on the sublayer
path (lines 179-183).  The non-`sub` branches are unreachable: `undef` and
`str` have already thrown in `hasTo`, and an `act` value always has `"to"`. -/
def subCommands : BindingEntry → HyperKeySublayer
  | .sub m => m
  | _ => []

/-- The single manipulator of the direct path, lines 153-174: the spread
action, triggered on the entry key with any modifiers, guarded by
`hyper == 1` first and then every registry variable `== 0` in order. -/
def directManipulator (vars : List String) (key : KeyCode) (c : LayerCommand) :
    Manipulator :=
  { description := c.description
    type := "basic"
    «from» := { key_code := key, optional_modifiers := ["any"] }
    «to» := c.«to»
    to_if_alone := none
    to_after_key_up := none
    conditions :=
      { type := "variable_if", name := "hyper", value := 1 } ::
        vars.map (fun v => { type := "variable_if", name := v, value := 0 }) }

/-- Compilation of one `Object.entries` pair, lines 148-185: classify by
`"to" in value` and emit either the direct rule or the sublayer rule. -/
def compileEntry (vars : List String) (key : KeyCode) (value : BindingEntry) :
    Except String KarabinerRules :=
  match hasTo value with
  | .error e => .error e
  | .ok t =>
    if t then
      .ok { description := "Hyper Key + " ++ key
            manipulators := [directManipulator vars key (directCommand value)] }
    else
      .ok { description := "Hyper Key sublayer \"" ++ key ++ "\""
            manipulators := createHyperSubLayer key (subCommands value) vars }

/-- The `.map` over `Object.entries(subLayers)` of line 148; a thrown
`TypeError` aborts the whole map at the first offending entry. -/
def compileEntries (vars : List String) :
    List (KeyCode × BindingEntry) → Except String (List KarabinerRules)
  | [] => .ok []
  | (key, value) :: rest =>
    match compileEntry vars key value, compileEntries vars rest with
    | .ok r, .ok rs => .ok (r :: rs)
    | .error e, _ => .error e
    | _, .error e => .error e

/-- Lines 129-186: `createHyperSubLayers` — compute the shared variable
registry once, then compile every entry against it. -/
def createHyperSubLayers (subLayers : List (KeyCode × BindingEntry)) :
    Except String (List KarabinerRules) :=
  compileEntries (allSubLayerVariables subLayers) subLayers

/-- Rule emitted for the i-th top-level entry, `none` when compilation threw
or the index is out of range. -/
def emittedRule (subLayers : List (KeyCode × BindingEntry)) (i : Nat) :
    Option KarabinerRules :=
  (createHyperSubLayers subLayers).toOption.bind (fun rs => rs[i]?)

/-- An entry value that the `"to" in value` test can be applied to without a
`TypeError` (neither `undefined` nor a primitive string). -/
def definedEntry : BindingEntry → Bool
  | .undef => false
  | .str _ => false
  | _ => true

/-- Pure classification mirroring `hasTo` on defined entries. -/
def hasToB : BindingEntry → Bool
  | .sub m => m.any (fun p => p.1 == "to")
  | .act _ => true
  | _ => false

/-- The rule `compileEntry` produces on a defined entry. -/
def compileEntryPure (vars : List String) (key : KeyCode) (value : BindingEntry) :
    KarabinerRules :=
  if hasToB value then
    { description := "Hyper Key + " ++ key
      manipulators := [directManipulator vars key (directCommand value)] }
  else
    { description := "Hyper Key sublayer \"" ++ key ++ "\""
      manipulators := createHyperSubLayer key (subCommands value) vars }

/-- Spec-side predicate: a genuine sublayer entry is a `SublayerMap` holding at
least one command key. -/
def isGenuineSublayer : BindingEntry → Bool
  | .sub m => !m.isEmpty
  | _ => false

/-- Spec-side count of genuine sublayer entries of a top-level map. -/
def genuineSublayerCount (subLayers : List (KeyCode × BindingEntry)) : Nat :=
  (subLayers.filter (fun p => isGenuineSublayer p.2)).length

/-- Spec-side predicate: a non-degenerate entry (not absent, not primitive,
and not a sublayer map with zero command keys). -/
def isNonDegenerate : BindingEntry → Bool
  | .undef => false
  | .str _ => false
  | .sub m => !m.isEmpty
  | .act _ => true

/-- Spec-side count of non-degenerate top-level entries. -/
def countNonDegenerate (subLayers : List (KeyCode × BindingEntry)) : Nat :=
  (subLayers.filter (fun p => isNonDegenerate p.2)).length

/-- Modelled from the spec: the `KeyCode` vocabulary is a fixed, finite set of
symbolic key names known at compile time.  Its declaration lives in `./types`,
which is not part of the compiler core; the enumeration used here is the one
spelled out in the fallback table of `src/utils.ts` (lines 404-494). -/
def recognizedKeys : List KeyCode :=
  ["1", "2", "3", "4", "5", "6", "7", "8", "9", "0", "hyphen",
   "q", "w", "e", "r", "t", "y", "u", "i", "o", "p",
   "a", "s", "d", "f", "h", "g", "j", "k", "l",
   "z", "x", "c", "v", "b", "n", "m",
   "f1", "f2", "f3", "f4", "f5", "f6", "f7", "f8", "f9", "f10", "f11", "f12",
   "f13", "f14", "f15", "f16", "f17", "f18", "f19", "f20", "f21", "f22",
   "f23", "f24",
   "left_arrow", "up_arrow", "right_arrow", "down_arrow",
   "home", "end", "page_up", "page_down",
   "return_or_enter", "escape", "delete_or_backspace", "delete_forward",
   "tab", "spacebar", "equal_sign", "open_bracket", "close_bracket",
   "backslash", "non_us_pound", "semicolon", "quote",
   "grave_accent_and_tilde", "comma", "period", "slash", "non_us_backslash"]

/-- Every key identifier an author supplies in a top-level map: the top-level
keys themselves and the command keys of each sublayer map. -/
def suppliedKeys : List (KeyCode × BindingEntry) → List KeyCode
  | [] => []
  | (k, BindingEntry.sub m) :: rest => k :: (m.map Prod.fst ++ suppliedKeys rest)
  | (k, _) :: rest => k :: suppliedKeys rest

/-- Modelled from the spec: compilation guarded by the KeyIdentifier domain
check that the type system of `./types` performs — a key outside the
recognized set is rejected with a descriptive configuration error. -/
def createHyperSubLayersChecked (subLayers : List (KeyCode × BindingEntry)) :
    Except String (List KarabinerRules) :=
  match (suppliedKeys subLayers).find? (fun k => !(recognizedKeys.contains k)) with
  | some k => .error ("unrecognized key identifier: " ++ k)
  | none => createHyperSubLayers subLayers

/-! Helper lemmas about the embedding. -/

theorem generateSubLayerVariableName_inj {a b : KeyCode}
    (h : generateSubLayerVariableName a = generateSubLayerVariableName b) : a = b := by
  have h2 := congrArg String.data h
  simp only [generateSubLayerVariableName, String.data_append] at h2
  exact String.ext (List.append_cancel_left h2)

theorem hyper_ne_generated (k : KeyCode) :
    ("hyper" : String) ≠ generateSubLayerVariableName k := by
  intro h
  have h2 := congrArg (fun s => s.data.length) h
  have h3 : ("hyper" : String).data.length = 5 := by decide
  have h4 : ("hyper_sublayer_" : String).data.length = 15 := by decide
  simp only [generateSubLayerVariableName, String.data_append, List.length_append,
    h3, h4] at h2
  omega

theorem mem_allSubLayerVariables {s : List (KeyCode × BindingEntry)}
    {k : KeyCode} {e : BindingEntry} (hmem : (k, e) ∈ s)
    (hkeep : keepInRegistry e = true) :
    generateSubLayerVariableName k ∈ allSubLayerVariables s :=
  List.mem_map.mpr ⟨(k, e), List.mem_filter.mpr ⟨hmem, hkeep⟩, rfl⟩

theorem allSubLayerVariables_elem {s : List (KeyCode × BindingEntry)} {v : String}
    (h : v ∈ allSubLayerVariables s) :
    ∃ k e, (k, e) ∈ s ∧ keepInRegistry e = true ∧ v = generateSubLayerVariableName k := by
  obtain ⟨p, hp, hv⟩ := List.mem_map.mp h
  obtain ⟨hmem, hkeep⟩ := List.mem_filter.mp hp
  exact ⟨p.1, p.2, hmem, hkeep, hv.symm⟩

theorem allSubLayerVariables_nodup {s : List (KeyCode × BindingEntry)}
    (hnd : (s.map Prod.fst).Nodup) : (allSubLayerVariables s).Nodup := by
  have hsub : List.Sublist ((s.filter (fun p => keepInRegistry p.2)).map Prod.fst)
      (s.map Prod.fst) := (List.filter_sublist s).map Prod.fst
  have hnd2 : ((s.filter (fun p => keepInRegistry p.2)).map Prod.fst).Nodup :=
    hnd.sublist hsub
  have heq : allSubLayerVariables s =
      ((s.filter (fun p => keepInRegistry p.2)).map Prod.fst).map
        generateSubLayerVariableName := by
    simp [allSubLayerVariables, List.map_map, Function.comp]
  rw [heq]
  exact hnd2.map (fun a b => generateSubLayerVariableName_inj)

theorem compileEntry_eq_pure (vars : List String) (k : KeyCode) (e : BindingEntry)
    (h : definedEntry e = true) :
    compileEntry vars k e = .ok (compileEntryPure vars k e) := by
  cases e with
  | undef => simp [definedEntry] at h
  | str s => simp [definedEntry] at h
  | sub m =>
    show (if m.any (fun p => p.1 == "to") then _ else _) = _
    by_cases hany : m.any (fun p => p.1 == "to") <;>
      simp [hany, compileEntryPure, hasToB]
  | act c => rfl

theorem compileEntries_eq_map (vars : List String)
    (l : List (KeyCode × BindingEntry)) (h : ∀ p ∈ l, definedEntry p.2 = true) :
    compileEntries vars l = .ok (l.map (fun p => compileEntryPure vars p.1 p.2)) := by
  induction l with
  | nil => rfl
  | cons p rest ih =>
    obtain ⟨key, value⟩ := p
    have h1 : definedEntry value = true := h _ (List.mem_cons_self _ _)
    have h2 : ∀ q ∈ rest, definedEntry q.2 = true :=
      fun q hq => h q (List.mem_cons_of_mem _ hq)
    simp [compileEntries, compileEntry_eq_pure vars key value h1, ih h2]

theorem emittedRule_eq {s : List (KeyCode × BindingEntry)}
    (h : ∀ p ∈ s, definedEntry p.2 = true) (i : Nat) :
    emittedRule s i =
      (s[i]?).map (fun p => compileEntryPure (allSubLayerVariables s) p.1 p.2) := by
  simp [emittedRule, createHyperSubLayers, compileEntries_eq_map _ s h,
    Except.toOption, List.getElem?_map]

theorem length_filter_bne {l : List String} {a : String} (hnd : l.Nodup) (ha : a ∈ l) :
    (l.filter (fun v => v != a)).length = l.length - 1 := by
  induction l with
  | nil => cases ha
  | cons b t ih =>
    rw [List.nodup_cons] at hnd
    rcases List.mem_cons.mp ha with hb | ht
    · subst hb
      have hfix : t.filter (fun v => v != a) = t :=
        List.filter_eq_self.mpr (fun x hx => by
          have hxb : x ≠ a := fun hxb => hnd.1 (hxb ▸ hx)
          simpa using hxb)
      simp [List.filter_cons, hfix]
    · have hba : (b != a) = true := by
        have hba2 : b ≠ a := fun hba2 => hnd.1 (hba2 ▸ ht)
        simpa using hba2
      have hlen : 0 < t.length :=
        List.length_pos.mpr (fun hnil => by subst hnil; cases ht)
      simp only [List.filter_cons, hba, if_pos, List.length_cons, ih hnd.2 ht]
      omega

theorem nodup_getElem?_inj {α : Type} {l : List α} (hnd : l.Nodup) {i j : Nat} {a : α}
    (hi : l[i]? = some a) (hj : l[j]? = some a) : i = j := by
  induction l generalizing i j with
  | nil => simp at hi
  | cons b t ih =>
    rw [List.nodup_cons] at hnd
    match i, j with
    | 0, 0 => rfl
    | 0, j+1 =>
      simp at hi hj
      exact absurd (List.getElem?_mem hj) (hi ▸ hnd.1)
    | i+1, 0 =>
      simp at hi hj
      exact absurd (List.getElem?_mem hi) (hj ▸ hnd.1)
    | i+1, j+1 =>
      simp only [List.getElem?_cons_succ] at hi hj
      exact congrArg Nat.succ (ih hnd.2 hi hj)

theorem keys_ne_of_ne_index {s : List (KeyCode × BindingEntry)}
    (hnd : (s.map Prod.fst).Nodup) {i j : Nat} {k1 k2 : KeyCode}
    {e1 e2 : BindingEntry} (hi : s[i]? = some (k1, e1)) (hj : s[j]? = some (k2, e2))
    (hij : i ≠ j) : k1 ≠ k2 := by
  intro hk
  subst hk
  have hi2 : (s.map Prod.fst)[i]? = some k1 := by
    rw [List.getElem?_map Prod.fst s i, hi]; rfl
  have hj2 : (s.map Prod.fst)[j]? = some k1 := by
    rw [List.getElem?_map Prod.fst s j, hj]; rfl
  exact hij (nodup_getElem?_inj hnd hi2 hj2)

theorem assoc_unique {s : List (KeyCode × BindingEntry)}
    (hnd : (s.map Prod.fst).Nodup) {k : KeyCode} {e1 e2 : BindingEntry}
    (h1 : (k, e1) ∈ s) (h2 : (k, e2) ∈ s) : e1 = e2 := by
  obtain ⟨i, hi⟩ := List.mem_iff_getElem?.mp h1
  obtain ⟨j, hj⟩ := List.mem_iff_getElem?.mp h2
  by_cases hij : i = j
  · subst hij; rw [hi] at hj; cases hj; rfl
  · exact absurd rfl (keys_ne_of_ne_index hnd hi hj hij)

theorem hasToB_sub_eq_false {m : HyperKeySublayer} (h : ∀ p ∈ m, p.1 ≠ "to") :
    hasToB (BindingEntry.sub m) = false := by
  simp only [hasToB, List.any_eq_false]
  intro p hp
  simpa using h p hp

theorem keepInRegistry_sub {m : HyperKeySublayer} (h : ∀ p ∈ m, p.1 ≠ "to") :
    keepInRegistry (BindingEntry.sub m) = !m.isEmpty := by
  have hfix : (m.map Prod.fst).filter (fun x => x != "to") = m.map Prod.fst :=
    List.filter_eq_self.mpr (fun x hx => by
      obtain ⟨p, hp, rfl⟩ := List.mem_map.mp hx
      simpa using h p hp)
  simp only [keepInRegistry, objectKeys, hfix]
  cases m <;> simp

theorem keepInRegistry_act (c : LayerCommand) :
    keepInRegistry (BindingEntry.act c) = c.description.isSome := by
  obtain ⟨t, d⟩ := c
  cases d <;> rfl

theorem conditionNames_subset (vars : List String) (k : KeyCode) (e : BindingEntry)
    {mnp : Manipulator} (hm : mnp ∈ (compileEntryPure vars k e).manipulators)
    {c : Condition} (hc : c ∈ mnp.conditions) :
    c.name = "hyper" ∨ c.name ∈ vars ∨ c.name = generateSubLayerVariableName k := by
  unfold compileEntryPure at hm
  cases ht : hasToB e
  case true =>
    rw [ht] at hm
    simp only [if_true, List.mem_singleton] at hm
    subst hm
    simp only [directManipulator, List.mem_cons] at hc
    rcases hc with hc | hc
    · subst hc; exact Or.inl rfl
    · obtain ⟨v, hv, rfl⟩ := List.mem_map.mp hc
      exact Or.inr (Or.inl hv)
  case false =>
    rw [ht] at hm
    simp only [Bool.false_eq_true, if_false] at hm
    simp only [createHyperSubLayer, List.mem_cons] at hm
    rcases hm with hm | hm
    · subst hm
      simp only [List.mem_append, List.mem_singleton] at hc
      rcases hc with hc | hc
      · obtain ⟨v, hv, rfl⟩ := List.mem_map.mp hc
        exact Or.inr (Or.inl (List.mem_of_mem_filter hv))
      · subst hc; exact Or.inl rfl
    · obtain ⟨p, hp, rfl⟩ := List.mem_map.mp hm
      simp only [List.mem_singleton] at hc
      subst hc
      exact Or.inr (Or.inr rfl)

/-! Claim theorems. -/

/-- C6: for every sublayer key and sublayer map, `createHyperSubLayer` returns
an ordered manipulator list of size exactly `1 + |commands|` whose first
element is the toggle; the immediate `to` effect of the toggle sets the sublayer
variable to 1, its `to_after_key_up` effect sets it back to 0, and its
`to_if_alone` effect emits the sublayer key itself with the modifiers
left_shift, left_command, left_control, left_option. -/
theorem C6_toggle_and_size (key : KeyCode) (m : HyperKeySublayer)
    (vars : List String) :
    (createHyperSubLayer key m vars).length = 1 + m.length ∧
    ∃ t, (createHyperSubLayer key m vars).head? = some t ∧
      t.«to» = [ToEvent.setVar (generateSubLayerVariableName key) 1] ∧
      t.to_after_key_up = some [ToEvent.setVar (generateSubLayerVariableName key) 0] ∧
      t.to_if_alone = some [ToEvent.key key
        ["left_shift", "left_command", "left_control", "left_option"]] := by
  refine ⟨?_, _, rfl, rfl, rfl, rfl⟩
  simp [createHyperSubLayer, Nat.add_comm]

/-- C5: every command manipulator inside a sublayer (positions 1 and up of the
`createHyperSubLayer` output) has guard set exactly the single condition
`own variable == 1`, and its effect is exactly the author-supplied action,
`to` list and description passed through unmodified. -/
theorem C5_command_manipulator (key : KeyCode) (m : HyperKeySublayer)
    (vars : List String) (j : Nat) (cmd : KeyCode × LayerCommand)
    (h : m[j]? = some cmd) :
    (createHyperSubLayer key m vars)[j + 1]? = some
      { description := cmd.2.description
        type := "basic"
        «from» := { key_code := cmd.1, optional_modifiers := ["any"] }
        «to» := cmd.2.«to»
        to_if_alone := none
        to_after_key_up := none
        conditions :=
          [{ type := "variable_if", name := generateSubLayerVariableName key,
             value := 1 }] } := by
  show (_ :: m.map _)[j + 1]? = _
  rw [List.getElem?_cons_succ, List.getElem?_map, h]
  rfl

/-- C5 witness: instantiation at the sublayer `o` holding the single command
`g`, compiled against a two-variable registry. -/
theorem C5_command_manipulator_witness :
    ([("g", { «to» := [ToEvent.shell ("open Chrome")],
              description := some ("Open Chrome") })] : HyperKeySublayer)[0]? =
      some ("g", { «to» := [ToEvent.shell ("open Chrome")],
                   description := some ("Open Chrome") }) ∧
    (createHyperSubLayer ("o")
        [("g", { «to» := [ToEvent.shell ("open Chrome")],
                 description := some ("Open Chrome") })]
        ["hyper_sublayer_o", "hyper_sublayer_m"])[1]? = some
      { description := some ("Open Chrome")
        type := "basic"
        «from» := { key_code := "g", optional_modifiers := ["any"] }
        «to» := [ToEvent.shell ("open Chrome")]
        to_if_alone := none
        to_after_key_up := none
        conditions :=
          [{ type := "variable_if", name := generateSubLayerVariableName ("o"),
             value := 1 }] } :=
  ⟨rfl, C5_command_manipulator ("o") _ _ 0 _ rfl⟩

/-- C10: in a sublayer toggle manipulator the sibling-variable conditions come
first, in registry order, and `hyper == 1` is the last element of
`conditions`; in a direct top-level manipulator `hyper == 1` is the first
element, followed by the registry-variable conditions in registry order. -/
theorem C10_guard_positions (vars : List String) (key : KeyCode)
    (m : HyperKeySublayer) (k2 : KeyCode) (c : LayerCommand) :
    (∃ t, (createHyperSubLayer key m vars).head? = some t ∧
      t.conditions.getLast? =
        some { type := "variable_if", name := "hyper", value := 1 } ∧
      t.conditions.dropLast =
        (vars.filter (fun v => v != generateSubLayerVariableName key)).map
          (fun v => { type := "variable_if", name := v, value := 0 })) ∧
    (∃ mn, (compileEntryPure vars k2 (BindingEntry.act c)).manipulators = [mn] ∧
      mn.conditions.head? =
        some { type := "variable_if", name := "hyper", value := 1 } ∧
      mn.conditions.tail =
        vars.map (fun v => { type := "variable_if", name := v, value := 0 })) := by
  constructor
  · exact ⟨_, rfl, List.getLast?_concat _, List.dropLast_concat⟩
  · exact ⟨_, rfl, rfl, rfl⟩

/-- C8: the claim says compilation always completes with absent entries
silently excluded, but an entry whose value is `undefined` passes the registry
filter only to make line 149 evaluate `"to" in undefined`, which throws a
`TypeError`: compilation aborts with an error. -/
theorem C8_undefined_entry_throws :
    createHyperSubLayers [("a", BindingEntry.undef)] =
      .error ("TypeError: cannot use the in operator to search for to in undefined") :=
  rfl

/-- C2 (amended): the registry contains the variable name of every entry that
survives the filter at lines 135-144, and nothing else; an entry survives iff
it is defined, not a primitive string, and has at least one object key other
than `"to"` — which keeps every genuine sublayer, drops `undefined`, strings,
empty sublayer maps and description-less direct actions, but KEEPS a direct
action that carries a description. -/
theorem C2_registry_characterization :
    (∀ s : List (KeyCode × BindingEntry), ∀ k e, (k, e) ∈ s →
      keepInRegistry e = true →
      generateSubLayerVariableName k ∈ allSubLayerVariables s) ∧
    (∀ s : List (KeyCode × BindingEntry), ∀ v ∈ allSubLayerVariables s,
      ∃ k e, (k, e) ∈ s ∧ keepInRegistry e = true ∧
        v = generateSubLayerVariableName k) ∧
    (∀ m : HyperKeySublayer, (∀ p ∈ m, p.1 ≠ "to") →
      keepInRegistry (BindingEntry.sub m) = !m.isEmpty) ∧
    (∀ c : LayerCommand, keepInRegistry (BindingEntry.act c) = c.description.isSome) ∧
    keepInRegistry BindingEntry.undef = false ∧
    (∀ v, keepInRegistry (BindingEntry.str v) = false) :=
  ⟨fun _ _ _ hmem hkeep => mem_allSubLayerVariables hmem hkeep,
   fun _ _ hv => allSubLayerVariables_elem hv,
   fun _ h => keepInRegistry_sub h,
   keepInRegistry_act,
   rfl,
   fun _ => rfl⟩

/-- C2 counterexample: a direct action carrying a description is not a genuine
sublayer, yet the registry computed for it does contain its variable — the
claim that no direct-Action-shaped entry produces a variable is false. -/
theorem C2_counterexample :
    allSubLayerVariables
        [("m", BindingEntry.act { «to» := [ToEvent.shell ("open Mail")],
                                  description := some ("Open Mail") })] =
      ["hyper_sublayer_m"] ∧
    isGenuineSublayer
        (BindingEntry.act { «to» := [ToEvent.shell ("open Mail")],
                            description := some ("Open Mail") }) = false :=
  ⟨rfl, rfl⟩

/-- C2 witness: the first component of the characterization applied to a
concrete map holding one genuine sublayer. -/
theorem C2_registry_characterization_witness :
    generateSubLayerVariableName ("o") ∈ allSubLayerVariables
      [("o", BindingEntry.sub
        [("g", { «to» := [ToEvent.shell ("open Chrome")],
                 description := some ("Open Chrome") })])] :=
  C2_registry_characterization.1
    [("o", BindingEntry.sub
      [("g", { «to» := [ToEvent.shell ("open Chrome")],
               description := some ("Open Chrome") })])]
    ("o")
    (BindingEntry.sub
      [("g", { «to» := [ToEvent.shell ("open Chrome")],
               description := some ("Open Chrome") })])
    (by decide) (by decide)

/-- C4 (amended): every direct top-level entry compiles to one Rule holding a
single manipulator that triggers on the entry key with any optional modifiers,
fires the supplied action unmodified, and is guarded by `hyper == 1` followed
by `variable == 0` for every variable of the shared registry; its guard size
is `1 +` the registry size (the registry counts every filter-surviving entry,
which can exceed the number of genuine sublayers). -/
theorem C4_direct_rule (s : List (KeyCode × BindingEntry))
    (hwf : ∀ p ∈ s, definedEntry p.2 = true)
    (i : Nat) (k : KeyCode) (c : LayerCommand)
    (hget : s[i]? = some (k, BindingEntry.act c)) :
    ∃ mnp, emittedRule s i =
        some { description := "Hyper Key + " ++ k, manipulators := [mnp] } ∧
      mnp.«from» = { key_code := k, optional_modifiers := ["any"] } ∧
      mnp.«to» = c.«to» ∧
      mnp.description = c.description ∧
      mnp.conditions = { type := "variable_if", name := "hyper", value := 1 } ::
        (allSubLayerVariables s).map
          (fun v => { type := "variable_if", name := v, value := 0 }) ∧
      mnp.conditions.length = 1 + (allSubLayerVariables s).length := by
  rw [emittedRule_eq hwf i, hget]
  refine ⟨directManipulator (allSubLayerVariables s) k c, rfl, rfl, rfl, rfl, rfl, ?_⟩
  simp [directManipulator, Nat.add_comm]

/-- C4 counterexample: with a single described direct action the registry is
nonempty, so the guard of the direct rule has size 2, not
`1 + (number of genuine sublayers) = 1`. -/
theorem C4_counterexample :
    (emittedRule
        [("m", BindingEntry.act { «to» := [ToEvent.shell ("open Mail")],
                                  description := some ("Open Mail") })] 0).map
      (fun r => r.manipulators.map (fun mn => mn.conditions.length)) = some [2] ∧
    genuineSublayerCount
        [("m", BindingEntry.act { «to» := [ToEvent.shell ("open Mail")],
                                  description := some ("Open Mail") })] = 0 ∧
    (2 : Nat) ≠ 1 + 0 :=
  ⟨rfl, rfl, by decide⟩

/-- C4 witness: the direct rule emitted for a map with one genuine sublayer
and one undescribed direct action. -/
theorem C4_direct_rule_witness :
    ∃ mnp, emittedRule
        [("o", BindingEntry.sub
          [("g", { «to» := [ToEvent.shell ("open Chrome")],
                   description := some ("Open Chrome") })]),
         ("m", BindingEntry.act { «to» := [ToEvent.key ("m") []],
                                  description := none })] 1 =
        some { description := "Hyper Key + " ++ "m", manipulators := [mnp] } ∧
      mnp.«from» = { key_code := "m", optional_modifiers := ["any"] } ∧
      mnp.«to» = ([ToEvent.key ("m") []] : List ToEvent) ∧
      mnp.description = (none : Option String) ∧
      mnp.conditions = { type := "variable_if", name := "hyper", value := 1 } ::
        (allSubLayerVariables
          [("o", BindingEntry.sub
            [("g", { «to» := [ToEvent.shell ("open Chrome")],
                     description := some ("Open Chrome") })]),
           ("m", BindingEntry.act { «to» := [ToEvent.key ("m") []],
                                    description := none })]).map
          (fun v => { type := "variable_if", name := v, value := 0 }) ∧
      mnp.conditions.length = 1 + (allSubLayerVariables
        [("o", BindingEntry.sub
          [("g", { «to» := [ToEvent.shell ("open Chrome")],
                   description := some ("Open Chrome") })]),
         ("m", BindingEntry.act { «to» := [ToEvent.key ("m") []],
                                  description := none })]).length :=
  C4_direct_rule
    [("o", BindingEntry.sub
      [("g", { «to» := [ToEvent.shell ("open Chrome")],
               description := some ("Open Chrome") })]),
     ("m", BindingEntry.act { «to» := [ToEvent.key ("m") []],
                              description := none })]
    (by decide) 1 ("m")
    { «to» := [ToEvent.key ("m") []], description := none } rfl

/-- C7 (amended): for every top-level map whose values are all defined (no
`undefined` and no primitive string), the number of emitted Rules equals the
number of top-level entries — degenerate entries (empty sublayer maps,
description-less direct actions) still receive a Rule of their own. -/
theorem C7_rule_count (s : List (KeyCode × BindingEntry))
    (hwf : ∀ p ∈ s, definedEntry p.2 = true) :
    ∃ rs, createHyperSubLayers s = .ok rs ∧ rs.length = s.length := by
  unfold createHyperSubLayers
  exact ⟨s.map (fun p => compileEntryPure (allSubLayerVariables s) p.1 p.2),
    compileEntries_eq_map _ s hwf, List.length_map s _⟩

/-- C7 counterexample: a map holding one degenerate entry (an empty sublayer
map) has zero non-degenerate entries but compiles to one Rule. -/
theorem C7_counterexample :
    (createHyperSubLayers [("x", BindingEntry.sub [])]).toOption.map List.length =
      some 1 ∧
    countNonDegenerate [("x", BindingEntry.sub [])] = 0 ∧
    (1 : Nat) ≠ 0 :=
  ⟨rfl, rfl, by decide⟩

/-- C7 witness: the rule count at a concrete two-entry map. -/
theorem C7_rule_count_witness :
    ∃ rs, createHyperSubLayers
        [("o", BindingEntry.sub
          [("g", { «to» := [ToEvent.shell ("open Chrome")],
                   description := some ("Open Chrome") })]),
         ("m", BindingEntry.act { «to» := [ToEvent.key ("m") []],
                                  description := none })] = .ok rs ∧
      rs.length = ([("o", BindingEntry.sub
          [("g", { «to» := [ToEvent.shell ("open Chrome")],
                   description := some ("Open Chrome") })]),
         ("m", BindingEntry.act { «to» := [ToEvent.key ("m") []],
                                  description := none })] :
        List (KeyCode × BindingEntry)).length :=
  C7_rule_count
    [("o", BindingEntry.sub
      [("g", { «to» := [ToEvent.shell ("open Chrome")],
               description := some ("Open Chrome") })]),
     ("m", BindingEntry.act { «to» := [ToEvent.key ("m") []],
                              description := none })]
    (by decide)

/-- C9: if an author supplies a key identifier outside the finite recognized
set, the checked compilation (modelling the KeyIdentifier domain check the
`./types` vocabulary imposes at compile time) rejects the input with a
descriptive configuration error naming an unrecognized key, instead of
emitting rules. -/
theorem C9_unrecognized_key_rejected (s : List (KeyCode × BindingEntry))
    (h : ∃ k ∈ suppliedKeys s, recognizedKeys.contains k = false) :
    ∃ bad, recognizedKeys.contains bad = false ∧
      createHyperSubLayersChecked s =
        .error ("unrecognized key identifier: " ++ bad) := by
  have hsome : ((suppliedKeys s).find?
      (fun k => !(recognizedKeys.contains k))).isSome := by
    rw [List.find?_isSome]
    obtain ⟨k, hk, hc⟩ := h
    exact ⟨k, hk, by simp only [hc, Bool.not_false]⟩
  obtain ⟨bad, hbad⟩ := Option.isSome_iff_exists.mp hsome
  have hpb := List.find?_some hbad
  refine ⟨bad, by simpa using hpb, ?_⟩
  unfold createHyperSubLayersChecked
  rw [hbad]

/-- C9 witness: a map using the made-up key `bogus_key` is rejected. -/
theorem C9_unrecognized_key_rejected_witness :
    ∃ bad, recognizedKeys.contains bad = false ∧
      createHyperSubLayersChecked
        [("bogus_key", BindingEntry.act { «to» := [], description := none })] =
        .error ("unrecognized key identifier: " ++ bad) :=
  C9_unrecognized_key_rejected
    [("bogus_key", BindingEntry.act { «to» := [], description := none })]
    (by decide)

/-- C1 (amended): for every genuine sublayer entry, the toggle manipulator is
guarded by `hyper == 1`, never by its own variable, and by `variable == 0`
for the variable of every other genuine sublayer (so mutual exclusion is symmetric
for any two distinct genuine sublayers); its guard size equals the size of the
shared registry — `1 + (registry size) - 1`, where the registry counts every
filter-surviving entry, which can exceed the number of genuine sublayers. -/
theorem C1_toggle_guards (s : List (KeyCode × BindingEntry))
    (hnd : (s.map Prod.fst).Nodup)
    (hwf : ∀ p ∈ s, definedEntry p.2 = true)
    (i : Nat) (k : KeyCode) (m : HyperKeySublayer)
    (hget : s[i]? = some (k, BindingEntry.sub m))
    (hm : m ≠ []) (hto : ∀ p ∈ m, p.1 ≠ "to") :
    ∃ r t, emittedRule s i = some r ∧ r.manipulators.head? = some t ∧
      ({ type := "variable_if", name := "hyper", value := 1 } : Condition)
        ∈ t.conditions ∧
      (∀ c ∈ t.conditions, c.name ≠ generateSubLayerVariableName k) ∧
      (∀ j k2 m2, j ≠ i → s[j]? = some (k2, BindingEntry.sub m2) → m2 ≠ [] →
        (∀ p ∈ m2, p.1 ≠ "to") →
        ({ type := "variable_if", name := generateSubLayerVariableName k2,
           value := 0 } : Condition) ∈ t.conditions) ∧
      t.conditions.length = (allSubLayerVariables s).length := by
  have hvarsnd : (allSubLayerVariables s).Nodup := allSubLayerVariables_nodup hnd
  have hmem : (k, BindingEntry.sub m) ∈ s := List.getElem?_mem hget
  have hkeep : keepInRegistry (BindingEntry.sub m) = true := by
    rw [keepInRegistry_sub hto]
    cases m with
    | nil => exact absurd rfl hm
    | cons a t => rfl
  have hown : generateSubLayerVariableName k ∈ allSubLayerVariables s :=
    mem_allSubLayerVariables hmem hkeep
  have hrule : emittedRule s i =
      some (compileEntryPure (allSubLayerVariables s) k (BindingEntry.sub m)) := by
    rw [emittedRule_eq hwf i, hget]; rfl
  have hpure : compileEntryPure (allSubLayerVariables s) k (BindingEntry.sub m) =
      { description := "Hyper Key sublayer \"" ++ k ++ "\""
        manipulators := createHyperSubLayer k m (allSubLayerVariables s) } := by
    unfold compileEntryPure
    rw [hasToB_sub_eq_false hto]
    rfl
  refine ⟨{ description := "Hyper Key sublayer \"" ++ k ++ "\""
            manipulators := createHyperSubLayer k m (allSubLayerVariables s) },
          { description := some ("Toggle Hyper sublayer " ++ k)
            type := "basic"
            «from» := { key_code := k, optional_modifiers := ["any"] }
            «to» := [ToEvent.setVar (generateSubLayerVariableName k) 1]
            to_if_alone := some [ToEvent.key k
              ["left_shift", "left_command", "left_control", "left_option"]]
            to_after_key_up := some [ToEvent.setVar (generateSubLayerVariableName k) 0]
            conditions :=
              ((allSubLayerVariables s).filter
                  (fun v => v != generateSubLayerVariableName k)).map
                (fun v => { type := "variable_if", name := v, value := 0 })
              ++ [{ type := "variable_if", name := "hyper", value := 1 }] },
          by rw [hrule, hpure], rfl, ?_, ?_, ?_, ?_⟩
  · exact List.mem_append_right _ (List.mem_singleton.mpr rfl)
  · intro c hc
    rcases List.mem_append.mp hc with hcf | hch
    · obtain ⟨v, hv, rfl⟩ := List.mem_map.mp hcf
      have hvne := (List.mem_filter.mp hv).2
      simpa using hvne
    · rw [List.mem_singleton] at hch
      subst hch
      exact (hyper_ne_generated k)
  · intro j k2 m2 hji hj hm2 hto2
    have hmem2 : (k2, BindingEntry.sub m2) ∈ s := List.getElem?_mem hj
    have hkeep2 : keepInRegistry (BindingEntry.sub m2) = true := by
      rw [keepInRegistry_sub hto2]
      cases m2 with
      | nil => exact absurd rfl hm2
      | cons a t => rfl
    have hv2 : generateSubLayerVariableName k2 ∈ allSubLayerVariables s :=
      mem_allSubLayerVariables hmem2 hkeep2
    have hk2 : k2 ≠ k := keys_ne_of_ne_index hnd hj hget hji
    have hne : generateSubLayerVariableName k2 ≠ generateSubLayerVariableName k :=
      fun h => hk2 (generateSubLayerVariableName_inj h)
    apply List.mem_append_left
    refine List.mem_map.mpr ⟨generateSubLayerVariableName k2, ?_, rfl⟩
    exact List.mem_filter.mpr ⟨hv2, by simpa using hne⟩
  · have hlen := length_filter_bne hvarsnd hown
    have hpos : 0 < (allSubLayerVariables s).length :=
      List.length_pos.mpr (fun h0 => by rw [h0] at hown; cases hown)
    rw [List.length_append, List.length_map, hlen]
    simp
    omega

/-- C1 counterexample: with one genuine sublayer `o` and one described direct
action `m`, the registry holds two variables, so the toggle guard of `o` has size
2, not `1 + (number of genuine sublayers) - 1 = 1`. -/
theorem C1_counterexample :
    ((emittedRule
        [("o", BindingEntry.sub
          [("g", { «to» := [ToEvent.shell ("open Chrome")],
                   description := some ("Open Chrome") })]),
         ("m", BindingEntry.act { «to» := [ToEvent.shell ("open Mail")],
                                  description := some ("Open Mail") })] 0).bind
      (fun r => r.manipulators.head?)).map (fun t => t.conditions.length) =
        some 2 ∧
    genuineSublayerCount
        [("o", BindingEntry.sub
          [("g", { «to» := [ToEvent.shell ("open Chrome")],
                   description := some ("Open Chrome") })]),
         ("m", BindingEntry.act { «to» := [ToEvent.shell ("open Mail")],
                                  description := some ("Open Mail") })] = 1 ∧
    (2 : Nat) ≠ 1 + 1 - 1 :=
  ⟨rfl, rfl, by decide⟩

/-- C1 witness: the amended toggle-guard properties at a concrete map with two
genuine sublayers. -/
theorem C1_toggle_guards_witness :
    ∃ r t, emittedRule
        [("o", BindingEntry.sub
          [("g", { «to» := [ToEvent.shell ("open Chrome")],
                   description := some ("Open Chrome") })]),
         ("w", BindingEntry.sub
          [("u", { «to» := [ToEvent.shell ("open Safari")],
                   description := some ("Open Safari") })])] 0 = some r ∧
      r.manipulators.head? = some t ∧
      ({ type := "variable_if", name := "hyper", value := 1 } : Condition)
        ∈ t.conditions ∧
      (∀ c ∈ t.conditions, c.name ≠ generateSubLayerVariableName ("o")) ∧
      (∀ j k2 m2, j ≠ 0 →
        ([("o", BindingEntry.sub
          [("g", { «to» := [ToEvent.shell ("open Chrome")],
                   description := some ("Open Chrome") })]),
         ("w", BindingEntry.sub
          [("u", { «to» := [ToEvent.shell ("open Safari")],
                   description := some ("Open Safari") })])] :
          List (KeyCode × BindingEntry))[j]? = some (k2, BindingEntry.sub m2) →
        m2 ≠ [] → (∀ p ∈ m2, p.1 ≠ "to") →
        ({ type := "variable_if", name := generateSubLayerVariableName k2,
           value := 0 } : Condition) ∈ t.conditions) ∧
      t.conditions.length = (allSubLayerVariables
        [("o", BindingEntry.sub
          [("g", { «to» := [ToEvent.shell ("open Chrome")],
                   description := some ("Open Chrome") })]),
         ("w", BindingEntry.sub
          [("u", { «to» := [ToEvent.shell ("open Safari")],
                   description := some ("Open Safari") })])]).length :=
  C1_toggle_guards
    [("o", BindingEntry.sub
      [("g", { «to» := [ToEvent.shell ("open Chrome")],
               description := some ("Open Chrome") })]),
     ("w", BindingEntry.sub
      [("u", { «to» := [ToEvent.shell ("open Safari")],
               description := some ("Open Safari") })])]
    (by decide) (by decide) 0 ("o")
    [("g", { «to» := [ToEvent.shell ("open Chrome")],
             description := some ("Open Chrome") })]
    rfl (by decide) (by decide)

/-- C3 (amended): a top-level entry whose sublayer map has zero command keys
contributes no variable to the shared registry and its variable appears in the
guard set of no other entry, but the entry is compiled via the SUBLAYER path, not
the direct path: it yields a sublayer Rule whose single manipulator is the
toggle (setting the state variable of the entry). -/
theorem C3_empty_sublayer (s : List (KeyCode × BindingEntry))
    (hnd : (s.map Prod.fst).Nodup)
    (hwf : ∀ p ∈ s, definedEntry p.2 = true)
    (i : Nat) (k : KeyCode)
    (hget : s[i]? = some (k, BindingEntry.sub [])) :
    generateSubLayerVariableName k ∉ allSubLayerVariables s ∧
    (∃ t, emittedRule s i =
        some { description := "Hyper Key sublayer \"" ++ k ++ "\""
               manipulators := [t] } ∧
      t.«to» = [ToEvent.setVar (generateSubLayerVariableName k) 1]) ∧
    (∀ j r, j ≠ i → emittedRule s j = some r →
      ∀ mnp ∈ r.manipulators, ∀ c ∈ mnp.conditions,
        c.name ≠ generateSubLayerVariableName k) := by
  have hnotin : generateSubLayerVariableName k ∉ allSubLayerVariables s := by
    intro hin
    obtain ⟨k3, e3, hmem3, hkeep3, heq3⟩ := allSubLayerVariables_elem hin
    have hk3 : k3 = k := generateSubLayerVariableName_inj heq3.symm
    subst hk3
    have he3 : e3 = BindingEntry.sub [] :=
      assoc_unique hnd hmem3 (List.getElem?_mem hget)
    rw [he3] at hkeep3
    exact absurd hkeep3 (by decide)
  refine ⟨hnotin, ?_, ?_⟩
  · refine ⟨{ description := some ("Toggle Hyper sublayer " ++ k)
              type := "basic"
              «from» := { key_code := k, optional_modifiers := ["any"] }
              «to» := [ToEvent.setVar (generateSubLayerVariableName k) 1]
              to_if_alone := some [ToEvent.key k
                ["left_shift", "left_command", "left_control", "left_option"]]
              to_after_key_up :=
                some [ToEvent.setVar (generateSubLayerVariableName k) 0]
              conditions :=
                ((allSubLayerVariables s).filter
                    (fun v => v != generateSubLayerVariableName k)).map
                  (fun v => { type := "variable_if", name := v, value := 0 })
                ++ [{ type := "variable_if", name := "hyper", value := 1 }] },
            ?_, rfl⟩
    rw [emittedRule_eq hwf i, hget]
    rfl
  · intro j r hji hj mnp hmnp c hc
    rw [emittedRule_eq hwf j] at hj
    cases hsj : s[j]? with
    | none => rw [hsj] at hj; cases hj
    | some p =>
      rw [hsj] at hj
      simp only [Option.map_some'] at hj
      injection hj with hj2
      subst hj2
      obtain ⟨k2, e2⟩ := p
      rcases conditionNames_subset (allSubLayerVariables s) k2 e2 hmnp hc
        with h1 | h2 | h3
      · rw [h1]; exact hyper_ne_generated k
      · intro heq; rw [heq] at h2; exact hnotin h2
      · intro heq
        have hk2 : k2 = k := generateSubLayerVariableName_inj (h3.symm.trans heq)
        exact keys_ne_of_ne_index hnd hsj hget hji hk2

/-- C3 counterexample: an entry holding an empty sublayer map is NOT compiled
via the direct path — the emitted rule carries the sublayer-template
description and its sole manipulator is a toggle that sets the state
variable to 1, contradicting the claim that no toggle manipulator is emitted
for such an entry. -/
theorem C3_counterexample :
    (emittedRule [("x", BindingEntry.sub [])] 0).map KarabinerRules.description =
      some ("Hyper Key sublayer \"x\"") ∧
    (emittedRule [("x", BindingEntry.sub [])] 0).map
        (fun r => r.manipulators.map (fun t => t.«to»)) =
      some [[ToEvent.setVar ("hyper_sublayer_x") 1]] :=
  ⟨rfl, rfl⟩

/-- C3 witness: the amended statement at a concrete map holding an empty
sublayer entry `x` and a genuine sublayer `o`. -/
theorem C3_empty_sublayer_witness :
    generateSubLayerVariableName ("x") ∉ allSubLayerVariables
      [("x", BindingEntry.sub []),
       ("o", BindingEntry.sub
        [("g", { «to» := [ToEvent.shell ("open Chrome")],
                 description := some ("Open Chrome") })])] ∧
    (∃ t, emittedRule
        [("x", BindingEntry.sub []),
         ("o", BindingEntry.sub
          [("g", { «to» := [ToEvent.shell ("open Chrome")],
                   description := some ("Open Chrome") })])] 0 =
        some { description := "Hyper Key sublayer \"" ++ "x" ++ "\""
               manipulators := [t] } ∧
      t.«to» = [ToEvent.setVar (generateSubLayerVariableName ("x")) 1]) ∧
    (∀ j r, j ≠ 0 → emittedRule
        [("x", BindingEntry.sub []),
         ("o", BindingEntry.sub
          [("g", { «to» := [ToEvent.shell ("open Chrome")],
                   description := some ("Open Chrome") })])] j = some r →
      ∀ mnp ∈ r.manipulators, ∀ c ∈ mnp.conditions,
        c.name ≠ generateSubLayerVariableName ("x")) :=
  C3_empty_sublayer
    [("x", BindingEntry.sub []),
     ("o", BindingEntry.sub
      [("g", { «to» := [ToEvent.shell ("open Chrome")],
               description := some ("Open Chrome") })])]
    (by decide) (by decide) 0 ("x") rfl
